import Mathlib

/-!
Shallow embedding of the Essência BJJ CRM board logic (src/components/CRM.tsx,
three variants: the full-featured board `part_000`, and the simpler historical
variants `part_001` / `part_002`), together with the lead-loading mapping over
the remote store client (src/lib/supabase.ts).

Conventions of the embedding:
* A JS object of type `Record<string, FunnelStage>` is modelled as an
  association list `List (String × FunnelStage)` in insertion order; JS
  guarantees key uniqueness, which appears as a `Nodup` hypothesis where a
  proof needs it.
* The asynchronous remote call `updateTrialRegistrationStatus` is external
  (thin Supabase wrapper); its outcome is a `Bool` parameter `remoteOk` of each
  handler, and each handler additionally returns the list of remote update
  calls it issued, as `(leadId, newStatus)` pairs.
* React `setState` updates are modelled by explicit state passing on a record
  of the component's relevant state fields.
-/

/-! ## Data model -/

/-- FunnelStage metadata, from `interface FunnelStage` in `part_000`/`part_001`.
The optional `editable?: boolean` field is a `Bool` defaulting to `false`
(absent = undefined = falsy). -/
structure FunnelStage where
  title : String
  color : String
  editable : Bool := false
  order : Nat
deriving DecidableEq

/-- The stage registry `Record<string, FunnelStage>` as an association list in
JS object insertion order. -/
abbrev Registry := List (String × FunnelStage)

/-- Raw record from the remote store, `interface TrialRegistration` in
`src/lib/supabase.ts` (optional fields are `Option`). -/
structure TrialRegistration where
  id : Option String
  full_name : String
  phone : String
  age : Nat
  class_day : String
  class_time : String
  class_name : String
  specific_date : String
  status : Option String
  created_at : Option String
deriving DecidableEq

/-- In-memory lead, `interface Lead extends TrialRegistration` with `id` and
`status` made mandatory by the load mapping. -/
structure Lead where
  id : String
  full_name : String
  phone : String
  age : Nat
  class_day : String
  class_time : String
  class_name : String
  specific_date : String
  status : String
  created_at : Option String
deriving DecidableEq

/-- `DEFAULT_FUNNEL_STAGES` from `part_000`/`part_001`. -/
def DEFAULT_FUNNEL_STAGES : Registry :=
  [ ("pending", { title := "Novos Leads", color := "bg-blue-500", order := 0 }),
    ("contacted", { title := "Contatados", color := "bg-yellow-500", order := 1 }),
    ("confirmed", { title := "Confirmados", color := "bg-green-500", order := 2 }),
    ("completed", { title := "Compareceram", color := "bg-purple-500", order := 3 }),
    ("enrolled", { title := "Matriculados", color := "bg-emerald-500", order := 4 }),
    ("no_show", { title := "Não Compareceram", color := "bg-red-500", order := 5 }),
    ("cancelled", { title := "Cancelados", color := "bg-gray-500", order := 6 }) ]

/-- Keys of a registry, i.e. the stage identifiers in object order. -/
def keysOf (reg : Registry) : List String := reg.map Prod.fst

/-- Order values of a registry, in object order. -/
def ordersOf (reg : Registry) : List Nat := reg.map (fun e => e.2.order)

/-! ## String helpers used by lane creation -/

/-- Whitespace class of the JS regex `\s` restricted to the ASCII range
(space, tab, line feed, vertical tab, form feed, carriage return). -/
def isJsWhitespace (c : Char) : Bool :=
  c == ' ' || c == '\t' || c == '\n' || c == '\r' || c == '\x0b' || c == '\x0c'

/-- JS `String.prototype.trim()` as a character-list computation: strip leading
and trailing whitespace. -/
def jsTrim (s : String) : List Char :=
  ((s.data.dropWhile isJsWhitespace).reverse.dropWhile isJsWhitespace).reverse

/-- JS `str.replace(/\s+/g, '_')`: a left-to-right scan in which each maximal
whitespace run produces a single underscore. The flag records whether the
previous character was part of a whitespace run already replaced. -/
def replaceWsRuns : Bool → List Char → List Char
  | _, [] => []
  | prevWs, c :: rest =>
    if isJsWhitespace c then
      (if prevWs then replaceWsRuns true rest else '_' :: replaceWsRuns true rest)
    else c :: replaceWsRuns false rest

/-- `newLaneName.toLowerCase().replace(/\s+/g, '_')` from `handleCreateNewLane`. -/
def slugify (s : String) : String :=
  String.mk (replaceWsRuns false (s.data.map Char.toLower))

/-! ## Stage registry operations (from `part_000`; `part_001` has the
identical `handleCreateNewLane`, `handleDeleteLane` and lane-reorder code) -/

/-- `getSortedStages`: `Object.entries(funnelStages).sort(([, a], [, b]) => a.order - b.order)`.
`Array.prototype.sort` is stable, as is insertion sort. -/
def getSortedStages (reg : Registry) : Registry :=
  reg.insertionSort (fun a b => a.2.order ≤ b.2.order)

/-- `updatedStages[stageId] = { ...updatedStages[stageId], order: n }`:
replace the order of the entry keyed `stageId`, keeping everything else. -/
def setOrder (reg : Registry) (stageId : String) (n : Nat) : Registry :=
  reg.map (fun e => if e.1 = stageId then (e.1, { e.2 with order := n }) else e)

/-- The `stageEntries.forEach(([stageId], index) => ...)` renumbering loop of
the `LANE` branch of `handleDragEnd`, carrying the running index. -/
def renumberFrom (reg : Registry) : Nat → List (String × FunnelStage) → Registry
  | _, [] => reg
  | i, e :: rest => renumberFrom (setOrder reg e.1 i) (i + 1) rest

/-- The `type === 'LANE'` branch of `handleDragEnd` in `part_000`/`part_001`:
splice the dragged entry out of the sorted list, splice it back in at the
destination index, and renumber every stage by its position in the spliced
list. Indices come from the drag-and-drop library and are always in range;
out-of-range source indices are mapped to a no-op. -/
def handleDragEndLane (reg : Registry) (srcIdx dstIdx : Nat) : Registry :=
  match (getSortedStages reg)[srcIdx]? with
  | none => reg
  | some removed =>
    renumberFrom reg 0 (((getSortedStages reg).eraseIdx srcIdx).insertIdx dstIdx removed)

/-- Direction argument of `moveLane`. -/
inductive LaneDir where
  | left
  | right
deriving DecidableEq

/-- The adjacent index computed by `moveLane` (an `Int`, since JS index
arithmetic can go to `-1` on the leftmost lane). -/
def newLaneIndex (dir : LaneDir) (currentIndex : Nat) : Int :=
  match dir with
  | .left => (currentIndex : Int) - 1
  | .right => (currentIndex : Int) + 1

/-- `moveLane` from `part_000`: find the lane in the sorted list, bounds-check
the adjacent index, and swap the `order` values of the lane and its
neighbour. The final catch-all arm is unreachable (a lane found in the sorted
list is in the registry) but makes the match total. -/
def moveLane (reg : Registry) (laneId : String) (dir : LaneDir) : Registry :=
  match (getSortedStages reg).findIdx? (fun e => e.1 == laneId) with
  | none => reg
  | some currentIndex =>
    if newLaneIndex dir currentIndex < 0 ∨
        ((getSortedStages reg).length : Int) ≤ newLaneIndex dir currentIndex then reg
    else
      match (getSortedStages reg)[(newLaneIndex dir currentIndex).toNat]? with
      | none => reg
      | some target =>
        match reg.lookup laneId, reg.lookup target.1 with
        | some current, some targetStage =>
          setOrder (setOrder reg laneId targetStage.order) target.1 current.order
        | _, _ => reg

/-- Maximum existing order, `Math.max(...Object.values(funnelStages).map(s => s.order))`.
Orders are naturals, so folding `max` from `0` computes the maximum of any
non-empty registry (on an empty registry JS would give `-Infinity`; every
claim about creation assumes a non-empty registry). -/
def maxOrder (reg : Registry) : Nat :=
  (reg.map (fun e => e.2.order)).foldr max 0

/-- JS object spread `{ ...prev, [k]: v }`: if `k` is already a key its value
is replaced in place, otherwise the binding is appended last. -/
def insertOrReplace (reg : Registry) (k : String) (v : FunnelStage) : Registry :=
  if (keysOf reg).contains k then
    reg.map (fun e => if e.1 = k then (k, v) else e)
  else reg ++ [(k, v)]

/-- `handleCreateNewLane` from `part_000` (lines 137-156) and `part_001`
(lines 126-145, identical): blank names are rejected, the identifier is the
slugified name, and the new stage is editable with order `maxOrder + 1`. -/
def handleCreateNewLane (reg : Registry) (newLaneName newLaneColor : String) : Registry :=
  if jsTrim newLaneName = [] then reg
  else
    insertOrReplace reg (slugify newLaneName)
      { title := newLaneName, color := newLaneColor, editable := true,
        order := maxOrder reg + 1 }

/-! ## Component state and lead operations -/

/-- The state fields of the `part_000` CRM component that the claims are
about: the lead cache, the stage registry, and the error banner message. -/
structure CRMState where
  leads : List Lead
  funnelStages : Registry
  error : String
deriving DecidableEq

/-- The state fields of the `part_002` CRM component (its stage set is a
constant, so only the lead cache and the error message are state). -/
structure CRMState2 where
  leads : List Lead
  error : String
deriving DecidableEq

/-- The local cache patch used on a successful status update:
`prevLeads.map(lead => lead.id === leadId ? { ...lead, status: newStatus } : lead)`. -/
def updateLeadStatus (leads : List Lead) (leadId newStatus : String) : List Lead :=
  leads.map (fun lead => if lead.id = leadId then { lead with status := newStatus } else lead)

/-- `moveLeadToStatus` from `part_000`: awaits the remote update, then patches
the cache; on failure it sets the error banner and leaves the cache alone.
Also returns the remote calls issued. -/
def moveLeadToStatus (st : CRMState) (leadId newStatus : String) (remoteOk : Bool) :
    CRMState × List (String × String) :=
  if remoteOk then
    ({ st with leads := updateLeadStatus st.leads leadId newStatus }, [(leadId, newStatus)])
  else
    ({ st with error := "Erro ao atualizar status do lead" }, [(leadId, newStatus)])

/-- Drop location from `react-beautiful-dnd`'s `DropResult`. -/
structure DropTarget where
  droppableId : String
  index : Nat
deriving DecidableEq

/-- The fields of `DropResult` the handlers read. -/
structure DropResult where
  destination : Option DropTarget
  source : DropTarget
  draggableId : String
  type : String
deriving DecidableEq

/-- `handleDragEnd` from `part_000`: no destination is a no-op; a `LANE` drop
reorders the registry; a lead dropped at its own stage and position is a
no-op; otherwise the remote update is awaited and on success the cache is
patched, on failure the error banner is set. (The `isDraggingLane` UI flag is
not modelled.) -/
def handleDragEnd (st : CRMState) (result : DropResult) (remoteOk : Bool) :
    CRMState × List (String × String) :=
  match result.destination with
  | none => (st, [])
  | some destination =>
    if result.type = "LANE" then
      ({ st with
          funnelStages := handleDragEndLane st.funnelStages result.source.index destination.index },
        [])
    else if result.source.droppableId = destination.droppableId ∧
        result.source.index = destination.index then
      (st, [])
    else
      if remoteOk then
        ({ st with leads := updateLeadStatus st.leads result.draggableId destination.droppableId },
          [(result.draggableId, destination.droppableId)])
      else
        ({ st with error := "Erro ao atualizar status do lead" },
          [(result.draggableId, destination.droppableId)])

/-- `handleDragEnd` from `part_002` (lines 48-69): the early return fires
whenever source and destination stage coincide, regardless of position. -/
def handleDragEnd2 (st : CRMState2) (result : DropResult) (remoteOk : Bool) :
    CRMState2 × List (String × String) :=
  match result.destination with
  | none => (st, [])
  | some destination =>
    if result.source.droppableId = destination.droppableId then (st, [])
    else
      if remoteOk then
        ({ st with leads := updateLeadStatus st.leads result.draggableId destination.droppableId },
          [(result.draggableId, destination.droppableId)])
      else
        ({ st with error := "Erro ao atualizar status do lead" },
          [(result.draggableId, destination.droppableId)])

/-- `handleDeleteLane` from `part_000` (lines 158-174): a non-editable or
unknown lane is a no-op (`!funnelStages[laneId]?.editable`); otherwise every
lead of the lane is reassigned to `"pending"` and the key is removed. -/
def handleDeleteLane (st : CRMState) (laneId : String) : CRMState :=
  match st.funnelStages.lookup laneId with
  | none => st
  | some stage =>
    if stage.editable then
      { st with
        leads := st.leads.map
          (fun lead => if lead.status = laneId then { lead with status := "pending" } else lead),
        funnelStages := st.funnelStages.filter (fun e => e.1 != laneId) }
    else st

/-- `lead.status || 'pending'` on an optional string: `undefined` and the
empty string are falsy and normalize to `"pending"`. -/
def normalizeStatus : Option String → String
  | none => "pending"
  | some s => if s = "" then "pending" else s

/-- The per-record mapping of `loadLeads`:
`{ ...lead, id: lead.id!, status: lead.status || 'pending' }` (the `!` is a
non-null assertion on the store's primary key, modelled by `Option.getD`). -/
def mapLoadedLead (raw : TrialRegistration) : Lead :=
  { id := raw.id.getD "",
    full_name := raw.full_name,
    phone := raw.phone,
    age := raw.age,
    class_day := raw.class_day,
    class_time := raw.class_time,
    class_name := raw.class_name,
    specific_date := raw.specific_date,
    status := normalizeStatus raw.status,
    created_at := raw.created_at }

/-- The cache contents produced by a successful `loadLeads` (identical in all
three variants). -/
def loadLeads (data : List TrialRegistration) : List Lead :=
  data.map mapLoadedLead

/-! ## Spec-side characterization of the slug (for the refinement claim about
lane identifiers): the title lowercased, with every maximal whitespace run
replaced by a single underscore, written as a direct recursion on maximal
runs. -/

theorem length_dropWhile_le_self {α : Type} (p : α → Bool) (l : List α) :
    (l.dropWhile p).length ≤ l.length := by
  induction l with
  | nil => simp
  | cons a t ih =>
    by_cases h : p a
    · simp only [List.dropWhile_cons, h, if_true]
      exact Nat.le_trans ih (Nat.le_succ _)
    · simp [List.dropWhile_cons, h]

/-- Replacement of maximal whitespace runs, stated the way the spec reads: a
whitespace character opens a run, the whole run maps to one underscore, and
the scan resumes after the run. -/
def specSlugChars : List Char → List Char
  | [] => []
  | c :: rest =>
    if isJsWhitespace c then '_' :: specSlugChars (rest.dropWhile isJsWhitespace)
    else c :: specSlugChars rest
termination_by l => l.length
decreasing_by
  · simp only [List.length_cons]
    exact Nat.lt_succ_of_le (length_dropWhile_le_self _ _)
  · simp

/-- Spec reading of the lane identifier derivation. -/
def specSlug (s : String) : String :=
  String.mk (specSlugChars (s.data.map Char.toLower))

theorem replaceWsRuns_true_eq (l : List Char) :
    replaceWsRuns true l = replaceWsRuns false (l.dropWhile isJsWhitespace) := by
  induction l with
  | nil => simp [replaceWsRuns]
  | cons c rest ih =>
    by_cases h : isJsWhitespace c
    · simp only [replaceWsRuns, h, if_true, List.dropWhile_cons, ih]
    · simp [replaceWsRuns, h, List.dropWhile_cons]

theorem specSlugChars_eq (l : List Char) : specSlugChars l = replaceWsRuns false l := by
  induction l using specSlugChars.induct with
  | case1 => simp [specSlugChars, replaceWsRuns]
  | case2 c rest h ih =>
    simp [specSlugChars, replaceWsRuns, h, ih, replaceWsRuns_true_eq]
  | case3 c rest h ih =>
    simp [specSlugChars, replaceWsRuns, h, ih]

theorem slugify_eq_specSlug (s : String) : slugify s = specSlug s := by
  unfold slugify specSlug
  rw [specSlugChars_eq]

theorem normalizeStatus_ne_empty (o : Option String) : normalizeStatus o ≠ "" := by
  cases o with
  | none => simp [normalizeStatus]
  | some s =>
    by_cases h : s = "" <;> simp [normalizeStatus, h]

/-! ## Registry helper lemmas -/

theorem order_le_maxOrder {reg : Registry} {e : String × FunnelStage} (he : e ∈ reg) :
    e.2.order ≤ maxOrder reg := by
  induction reg with
  | nil => cases he
  | cons x t ih =>
    rcases List.mem_cons.mp he with h | h
    · subst h
      simp only [maxOrder, List.map_cons, List.foldr_cons]
      exact Nat.le_max_left _ _
    · refine Nat.le_trans (ih h) ?_
      simp only [maxOrder, List.map_cons, List.foldr_cons]
      exact Nat.le_max_right _ _

theorem keysOf_nil : keysOf [] = [] := rfl

theorem keysOf_cons (x : String × FunnelStage) (t : Registry) :
    keysOf (x :: t) = x.1 :: keysOf t := rfl

theorem lookup_cons_entry (e : String × FunnelStage) (t : Registry) (a : String) :
    ((e :: t).lookup a) = if a = e.1 then some e.2 else t.lookup a := by
  obtain ⟨k, b⟩ := e
  rw [List.lookup_cons]
  by_cases h : a = k
  · simp [h]
  · simp [h, beq_eq_false_iff_ne.mpr h]

theorem lookup_replaceAll {reg : Registry} {k : String} (v : FunnelStage)
    (hk : k ∈ keysOf reg) :
    (reg.map (fun e => if e.1 = k then (k, v) else e)).lookup k = some v := by
  induction reg with
  | nil => cases hk
  | cons x t ih =>
    by_cases h : x.1 = k
    · rw [List.map_cons, if_pos h, lookup_cons_entry]
      simp
    · have hk' : k ∈ keysOf t := by
        rcases List.mem_cons.mp hk with h' | h'
        · exact absurd h'.symm h
        · exact h'
      rw [List.map_cons, if_neg h, lookup_cons_entry, if_neg (fun hh => h hh.symm)]
      exact ih hk'

theorem lookup_append_single {reg : Registry} {k : String} (v : FunnelStage)
    (hk : k ∉ keysOf reg) :
    (reg ++ [(k, v)]).lookup k = some v := by
  induction reg with
  | nil => simp [lookup_cons_entry]
  | cons x t ih =>
    have h : x.1 ≠ k := by
      intro hh
      exact hk (by simp [keysOf_cons, hh])
    have hk' : k ∉ keysOf t := by
      intro hh
      exact hk (by rw [keysOf_cons]; exact List.mem_cons_of_mem _ hh)
    rw [List.cons_append, lookup_cons_entry, if_neg (fun hh => h hh.symm)]
    exact ih hk'

theorem contains_iff_mem_keys {reg : Registry} {k : String} :
    (keysOf reg).contains k = true ↔ k ∈ keysOf reg := by
  simp [List.contains_iff_exists_mem_beq, beq_iff_eq]

theorem lookup_insertOrReplace (reg : Registry) (k : String) (v : FunnelStage) :
    (insertOrReplace reg k v).lookup k = some v := by
  unfold insertOrReplace
  by_cases h : k ∈ keysOf reg
  · rw [if_pos (contains_iff_mem_keys.mpr h)]
    exact lookup_replaceAll v h
  · rw [if_neg (fun hc => h (contains_iff_mem_keys.mp hc))]
    exact lookup_append_single v h

theorem keysOf_replaceAll (reg : Registry) (k : String) (v : FunnelStage) :
    keysOf (reg.map (fun e => if e.1 = k then (k, v) else e)) = keysOf reg := by
  unfold keysOf
  rw [List.map_map]
  refine List.map_congr_left fun e _ => ?_
  by_cases h : e.1 = k <;> simp [h]

theorem keysOf_setOrder (reg : Registry) (k : String) (n : Nat) :
    keysOf (setOrder reg k n) = keysOf reg := by
  unfold keysOf setOrder
  rw [List.map_map]
  refine List.map_congr_left fun e _ => ?_
  by_cases h : e.1 = k <;> simp [h]

theorem length_setOrder (reg : Registry) (k : String) (n : Nat) :
    (setOrder reg k n).length = reg.length := by
  simp [setOrder]

theorem setOrder_of_not_mem {reg : Registry} {k : String} (n : Nat)
    (h : k ∉ keysOf reg) : setOrder reg k n = reg := by
  unfold setOrder
  have hcong : ∀ e ∈ reg, (if e.1 = k then (e.1, { e.2 with order := n }) else e) = id e := by
    intro e he
    rw [if_neg]
    · rfl
    · intro hek
      exact h (hek ▸ List.mem_map_of_mem Prod.fst he)
  rw [List.map_congr_left hcong, List.map_id]

theorem ordersOf_cons (x : String × FunnelStage) (t : Registry) :
    ordersOf (x :: t) = x.2.order :: ordersOf t := rfl

theorem setOrder_cons (x : String × FunnelStage) (t : Registry) (k : String) (n : Nat) :
    setOrder (x :: t) k n
      = (if x.1 = k then (x.1, { x.2 with order := n }) else x) :: setOrder t k n := rfl

theorem keysOf_renumberFrom (entries : List (String × FunnelStage)) :
    ∀ (reg : Registry) (j : Nat), keysOf (renumberFrom reg j entries) = keysOf reg := by
  induction entries with
  | nil => intro reg j; rfl
  | cons x t ih =>
    intro reg j
    show keysOf (renumberFrom (setOrder reg x.1 j) (j + 1) t) = keysOf reg
    rw [ih, keysOf_setOrder]

theorem renumberFrom_eq_map (entries : List (String × FunnelStage)) :
    ∀ (reg : Registry) (j : Nat), (keysOf entries).Nodup →
      renumberFrom reg j entries
        = reg.map (fun e =>
            if e.1 ∈ keysOf entries
            then (e.1, { e.2 with order := j + (keysOf entries).indexOf e.1 })
            else e) := by
  induction entries with
  | nil =>
    intro reg j _
    show reg = _
    simp [keysOf]
  | cons x t ih =>
    intro reg j hnd
    rw [keysOf_cons, List.nodup_cons] at hnd
    obtain ⟨hx, hndt⟩ := hnd
    show renumberFrom (setOrder reg x.1 j) (j + 1) t = _
    rw [ih (setOrder reg x.1 j) (j + 1) hndt]
    unfold setOrder
    rw [List.map_map]
    refine List.map_congr_left fun e _ => ?_
    simp only [Function.comp_apply]
    by_cases h1 : e.1 = x.1
    · rw [if_pos h1]
      rw [if_neg (by simpa using (h1 ▸ hx : e.1 ∉ keysOf t))]
      rw [keysOf_cons, if_pos (by rw [h1]; exact List.mem_cons_self _ _)]
      rw [h1, List.indexOf_cons_self]
      simp
    · rw [if_neg h1]
      by_cases h2 : e.1 ∈ keysOf t
      · rw [if_pos h2, keysOf_cons, if_pos (List.mem_cons_of_mem _ h2)]
        rw [List.indexOf_cons_ne _ (fun hh => h1 hh.symm)]
        have harith : j + 1 + List.indexOf e.1 (keysOf t)
            = j + Nat.succ (List.indexOf e.1 (keysOf t)) := by omega
        rw [harith]
      · rw [if_neg h2, keysOf_cons, if_neg (by simp [h1, h2])]

theorem insertIdx_perm_cons {α : Type} (a : α) :
    ∀ (n : Nat) (l : List α), n ≤ l.length → (List.insertIdx n a l).Perm (a :: l) := by
  intro n
  induction n with
  | zero => intro l _h; simp
  | succ m ih =>
    intro l hl
    cases l with
    | nil => simp at hl
    | cons b t =>
      rw [List.insertIdx_succ_cons]
      exact (List.Perm.cons b (ih t (Nat.le_of_succ_le_succ hl))).trans (List.Perm.swap a b t)

theorem map_indexOf_self {ks : List String} (h : ks.Nodup) :
    ks.map (fun k => ks.indexOf k) = List.range ks.length := by
  refine List.ext_getElem (by simp) ?_
  intro i h1 h2
  rw [List.getElem_map, List.getElem_range]
  exact List.indexOf_getElem h i (by simpa using h1)

theorem cons_orders_setOrder_perm (k : String) (v : Nat) :
    ∀ (reg : Registry) (s : FunnelStage), (keysOf reg).Nodup → reg.lookup k = some s →
      (s.order :: ordersOf (setOrder reg k v)).Perm (v :: ordersOf reg) := by
  intro reg
  induction reg with
  | nil => intro s _ hlk; simp at hlk
  | cons x t ih =>
    intro s hnd hlk
    obtain ⟨k0, s0⟩ := x
    rw [keysOf_cons, List.nodup_cons] at hnd
    obtain ⟨hk0, hndt⟩ := hnd
    simp only [lookup_cons_entry] at hlk
    rw [setOrder_cons]
    by_cases h : k = k0
    · rw [if_pos h] at hlk
      have hs : s0 = s := by simpa using hlk
      rw [if_pos (by simpa using h.symm)]
      rw [setOrder_of_not_mem v (by simpa [← h] using hk0)]
      rw [ordersOf_cons, ordersOf_cons]
      rw [← hs]
      exact List.Perm.swap v s0.order (ordersOf t)
    · rw [if_neg h] at hlk
      rw [if_neg (by simpa using fun hh => h hh.symm)]
      rw [ordersOf_cons, ordersOf_cons]
      have ihh := ih s hndt hlk
      exact ((List.Perm.swap s0.order s.order _).trans
        (List.Perm.cons s0.order ihh)).trans (List.Perm.swap v s0.order _)

theorem swap_orders_perm (k1 k2 : String) :
    ∀ (reg : Registry) (s1 s2 : FunnelStage), (keysOf reg).Nodup → k1 ≠ k2 →
      reg.lookup k1 = some s1 → reg.lookup k2 = some s2 →
      (ordersOf (setOrder (setOrder reg k1 s2.order) k2 s1.order)).Perm (ordersOf reg) := by
  intro reg
  induction reg with
  | nil => intro s1 s2 _ _ h1 _; simp at h1
  | cons x t ih =>
    intro s1 s2 hnd hne h1 h2
    obtain ⟨k0, s0⟩ := x
    rw [keysOf_cons, List.nodup_cons] at hnd
    obtain ⟨hk0, hndt⟩ := hnd
    simp only [lookup_cons_entry] at h1 h2
    by_cases e1 : k1 = k0
    · subst e1
      rw [if_pos rfl] at h1
      have hs : s0 = s1 := by simpa using h1
      have e2 : ¬(k2 = k1) := fun hh => hne hh.symm
      rw [if_neg e2] at h2
      have hinner : setOrder ((k1, s0) :: t) k1 s2.order
          = (k1, { s0 with order := s2.order }) :: t := by
        rw [setOrder_cons, if_pos rfl, setOrder_of_not_mem s2.order (by simpa using hk0)]
      rw [hinner]
      have houter : setOrder ((k1, { s0 with order := s2.order }) :: t) k2 s1.order
          = (k1, { s0 with order := s2.order }) :: setOrder t k2 s1.order := by
        rw [setOrder_cons, if_neg (fun hh => e2 hh.symm)]
      rw [houter, ordersOf_cons, ordersOf_cons, hs]
      exact cons_orders_setOrder_perm k2 s1.order t s2 hndt h2
    · rw [if_neg e1] at h1
      by_cases e2 : k2 = k0
      · subst e2
        rw [if_pos rfl] at h2
        have hs : s0 = s2 := by simpa using h2
        have hinner : setOrder ((k2, s0) :: t) k1 s2.order
            = (k2, s0) :: setOrder t k1 s2.order := by
          rw [setOrder_cons, if_neg (fun hh => e1 hh.symm)]
        rw [hinner]
        have houter : setOrder ((k2, s0) :: setOrder t k1 s2.order) k2 s1.order
            = (k2, { s0 with order := s1.order }) :: setOrder t k1 s2.order := by
          rw [setOrder_cons, if_pos rfl]
          rw [setOrder_of_not_mem s1.order (by rw [keysOf_setOrder]; simpa using hk0)]
        rw [houter, ordersOf_cons, ordersOf_cons, hs]
        exact cons_orders_setOrder_perm k1 s2.order t s1 hndt h1
      · rw [if_neg e2] at h2
        have hinner : setOrder ((k0, s0) :: t) k1 s2.order
            = (k0, s0) :: setOrder t k1 s2.order := by
          rw [setOrder_cons, if_neg (fun hh => e1 hh.symm)]
        have houter : setOrder ((k0, s0) :: setOrder t k1 s2.order) k2 s1.order
            = (k0, s0) :: setOrder (setOrder t k1 s2.order) k2 s1.order := by
          rw [setOrder_cons, if_neg (fun hh => e2 hh.symm)]
        rw [hinner, houter, ordersOf_cons, ordersOf_cons]
        exact List.Perm.cons s0.order (ih s1 s2 hndt hne h1 h2)

theorem keysOf_handleDragEndLane (reg : Registry) (srcIdx dstIdx : Nat) :
    keysOf (handleDragEndLane reg srcIdx dstIdx) = keysOf reg := by
  unfold handleDragEndLane
  split
  · rfl
  · exact keysOf_renumberFrom _ _ _

theorem ordersOf_handleDragEndLane_perm (reg : Registry) (srcIdx dstIdx : Nat)
    (hnd : (keysOf reg).Nodup) (hsrc : srcIdx < reg.length) (hdst : dstIdx < reg.length) :
    (ordersOf (handleDragEndLane reg srcIdx dstIdx)).Perm (List.range reg.length) := by
  have hperm : (getSortedStages reg).Perm reg :=
    List.perm_insertionSort _ reg
  have hlen : (getSortedStages reg).length = reg.length := hperm.length_eq
  have hsrc' : srcIdx < (getSortedStages reg).length := by rw [hlen]; exact hsrc
  have hget : (getSortedStages reg)[srcIdx]? = some ((getSortedStages reg)[srcIdx]) :=
    List.getElem?_eq_getElem hsrc'
  have herase_len : ((getSortedStages reg).eraseIdx srcIdx).length = reg.length - 1 := by
    rw [List.length_eraseIdx, if_pos hsrc', hlen]
  have hdst' : dstIdx ≤ ((getSortedStages reg).eraseIdx srcIdx).length := by omega
  have hperm1 :
      (((getSortedStages reg).eraseIdx srcIdx).insertIdx dstIdx
        ((getSortedStages reg)[srcIdx])).Perm
        ((getSortedStages reg)[srcIdx] :: (getSortedStages reg).eraseIdx srcIdx) :=
    insertIdx_perm_cons _ dstIdx _ hdst'
  have hperm2 := List.erase_getElem hsrc'
  have hperm3 := List.perm_cons_erase (List.getElem_mem hsrc')
  have hNL :
      (((getSortedStages reg).eraseIdx srcIdx).insertIdx dstIdx
        ((getSortedStages reg)[srcIdx])).Perm reg :=
    ((hperm1.trans ((List.Perm.cons _ hperm2.symm).trans hperm3.symm)).trans hperm)
  have hkeys :
      (keysOf (((getSortedStages reg).eraseIdx srcIdx).insertIdx dstIdx
        ((getSortedStages reg)[srcIdx]))).Perm (keysOf reg) :=
    hNL.map Prod.fst
  have hndNL :
      (keysOf (((getSortedStages reg).eraseIdx srcIdx).insertIdx dstIdx
        ((getSortedStages reg)[srcIdx]))).Nodup :=
    hkeys.symm.nodup hnd
  have hred : handleDragEndLane reg srcIdx dstIdx
      = renumberFrom reg 0 (((getSortedStages reg).eraseIdx srcIdx).insertIdx dstIdx
          ((getSortedStages reg)[srcIdx])) := by
    unfold handleDragEndLane
    rw [hget]
  rw [hred, renumberFrom_eq_map _ reg 0 hndNL]
  unfold ordersOf
  rw [List.map_map]
  have hpt : ∀ e ∈ reg,
      ((fun e => e.2.order) ∘ fun e =>
        if e.1 ∈ keysOf (((getSortedStages reg).eraseIdx srcIdx).insertIdx dstIdx
            ((getSortedStages reg)[srcIdx]))
        then (e.1, { e.2 with order := 0 + (keysOf (((getSortedStages reg).eraseIdx srcIdx).insertIdx dstIdx
            ((getSortedStages reg)[srcIdx]))).indexOf e.1 })
        else e) e
      = (keysOf (((getSortedStages reg).eraseIdx srcIdx).insertIdx dstIdx
            ((getSortedStages reg)[srcIdx]))).indexOf e.1 := by
    intro e he
    have hmem : e.1 ∈ keysOf (((getSortedStages reg).eraseIdx srcIdx).insertIdx dstIdx
        ((getSortedStages reg)[srcIdx])) :=
      hkeys.mem_iff.mpr (List.mem_map_of_mem Prod.fst he)
    simp [hmem]
  rw [List.map_congr_left hpt]
  have hsplit : reg.map (fun e =>
      (keysOf (((getSortedStages reg).eraseIdx srcIdx).insertIdx dstIdx
        ((getSortedStages reg)[srcIdx]))).indexOf e.1)
      = (keysOf reg).map (fun k =>
      (keysOf (((getSortedStages reg).eraseIdx srcIdx).insertIdx dstIdx
        ((getSortedStages reg)[srcIdx]))).indexOf k) := by
    unfold keysOf
    rw [List.map_map]
    rfl
  rw [hsplit]
  have hfinal := (hkeys.symm.map (fun k =>
      (keysOf (((getSortedStages reg).eraseIdx srcIdx).insertIdx dstIdx
        ((getSortedStages reg)[srcIdx]))).indexOf k))
  refine hfinal.trans ?_
  rw [map_indexOf_self hndNL]
  have hlen2 : (keysOf (((getSortedStages reg).eraseIdx srcIdx).insertIdx dstIdx
      ((getSortedStages reg)[srcIdx]))).length = reg.length := by
    rw [hkeys.length_eq]
    simp [keysOf]
  rw [hlen2]

theorem keysOf_moveLane (reg : Registry) (laneId : String) (dir : LaneDir) :
    keysOf (moveLane reg laneId dir) = keysOf reg := by
  unfold moveLane
  repeat' split
  all_goals first
  | rfl
  | rw [keysOf_setOrder, keysOf_setOrder]

theorem ordersOf_moveLane_perm (reg : Registry) (laneId : String) (dir : LaneDir)
    (hnd : (keysOf reg).Nodup) :
    (ordersOf (moveLane reg laneId dir)).Perm (ordersOf reg) := by
  have hperm : (getSortedStages reg).Perm reg := List.perm_insertionSort _ reg
  have hkeysperm : (keysOf (getSortedStages reg)).Perm (keysOf reg) := hperm.map Prod.fst
  have hndS : (keysOf (getSortedStages reg)).Nodup := hkeysperm.symm.nodup hnd
  unfold moveLane
  split
  · exact List.Perm.refl _
  next currentIndex hfind =>
    split
    · exact List.Perm.refl _
    next hbound =>
      split
      · exact List.Perm.refl _
      next target hget =>
        split
        next current targetStage hlk1 hlk2 =>
          obtain ⟨hlt, hp, -⟩ := List.findIdx?_eq_some_iff_getElem.mp hfind
          obtain ⟨h2lt, h2eq⟩ := List.getElem?_eq_some.mp hget
          have hne_idx : (newLaneIndex dir currentIndex).toNat ≠ currentIndex := by
            cases dir
            all_goals simp [newLaneIndex] at hbound ⊢
            all_goals omega
          have hne : laneId ≠ target.1 := by
            intro hcontra
            apply hne_idx
            have hb1 : (newLaneIndex dir currentIndex).toNat
                < (keysOf (getSortedStages reg)).length := by
              simpa [keysOf] using h2lt
            have hb2 : currentIndex < (keysOf (getSortedStages reg)).length := by
              simpa [keysOf] using hlt
            have e1 : (keysOf (getSortedStages reg))[(newLaneIndex dir currentIndex).toNat]
                = (keysOf (getSortedStages reg))[currentIndex] := by
              simp only [keysOf, List.getElem_map]
              rw [h2eq, ← hcontra]
              exact (by simpa using hp : ((getSortedStages reg)[currentIndex]).1 = laneId).symm
            exact (hndS.getElem_inj_iff).mp e1
          exact swap_orders_perm laneId target.1 reg current targetStage hnd hne hlk1 hlk2
        next =>
          exact List.Perm.refl _

/-! ## Concrete fixtures for witnesses and counterexamples -/

/-- Sample lead, mirroring the first seed row of `supabase_schema.sql`. -/
def exLead : Lead :=
  { id := "1", full_name := "João Silva", phone := "(11) 99999-1234", age := 8,
    class_day := "Tuesday", class_time := "6:00 PM to 6:50 PM", class_name := "KIDS GI 6 - 9",
    specific_date := "15/01 (6pm-6:50pm)", status := "pending",
    created_at := some "2024-01-01" }

/-- A second lead sitting in a user-created lane. -/
def exLead2 : Lead := { exLead with id := "2", status := "extra_lane" }

/-- The raw form of `exLead` as returned by the store, with no status yet. -/
def exRaw : TrialRegistration :=
  { id := some "1", full_name := "João Silva", phone := "(11) 99999-1234", age := 8,
    class_day := "Tuesday", class_time := "6:00 PM to 6:50 PM", class_name := "KIDS GI 6 - 9",
    specific_date := "15/01 (6pm-6:50pm)", status := none,
    created_at := some "2024-01-01" }

/-- The user-created (editable) lane of the example registry. -/
def extraLaneStage : FunnelStage :=
  { title := "Extra Lane", color := "bg-indigo-500", editable := true, order := 7 }

/-- Default stages plus one user-created (editable) lane. -/
def exRegistry : Registry :=
  DEFAULT_FUNNEL_STAGES ++ [("extra_lane", extraLaneStage)]

def exState : CRMState := { leads := [exLead, exLead2], funnelStages := exRegistry, error := "" }

def exState2 : CRMState2 := { leads := [exLead], error := "" }

/-- A drop of lead "1" from stage "pending" position 0 to stage "contacted". -/
def exDropCross : DropResult :=
  { destination := some { droppableId := "contacted", index := 0 },
    source := { droppableId := "pending", index := 0 },
    draggableId := "1", type := "DEFAULT" }

/-- A drop of lead "1" within stage "pending", from position 0 to position 1. -/
def exDropSameLane : DropResult :=
  { destination := some { droppableId := "pending", index := 1 },
    source := { droppableId := "pending", index := 0 },
    draggableId := "1", type := "DEFAULT" }

/-- A registry with a non-dense order set {0, 2}, as arises after creating two
lanes and deleting the first of them. -/
def nonDenseReg : Registry :=
  [ ("a", { title := "A", color := "bg-blue-500", order := 0 }),
    ("b", { title := "B", color := "bg-red-500", order := 2 }) ]

/-! ## Claim theorems -/

/-- C2: deleting a stage whose editable flag is true reassigns every lead of
that stage to "pending" (changing nothing else about any lead) and removes
exactly that identifier from the registry; deleting a non-editable or unknown
stage changes nothing. -/
theorem deleteLane_spec (st : CRMState) (laneId : String) :
    (∀ stage, st.funnelStages.lookup laneId = some stage → stage.editable = true →
      laneId ∉ keysOf (handleDeleteLane st laneId).funnelStages ∧
      (∀ e ∈ st.funnelStages, e.1 ≠ laneId → e ∈ (handleDeleteLane st laneId).funnelStages) ∧
      (∀ e ∈ (handleDeleteLane st laneId).funnelStages, e ∈ st.funnelStages ∧ e.1 ≠ laneId) ∧
      (handleDeleteLane st laneId).leads.length = st.leads.length ∧
      (∀ i (h : i < st.leads.length) (h2 : i < (handleDeleteLane st laneId).leads.length),
        ((st.leads[i]).status = laneId →
          (handleDeleteLane st laneId).leads[i] = { st.leads[i] with status := "pending" }) ∧
        ((st.leads[i]).status ≠ laneId →
          (handleDeleteLane st laneId).leads[i] = st.leads[i])) ∧
      (handleDeleteLane st laneId).error = st.error) ∧
    (∀ stage, st.funnelStages.lookup laneId = some stage → stage.editable = false →
      handleDeleteLane st laneId = st) ∧
    (st.funnelStages.lookup laneId = none → handleDeleteLane st laneId = st) := by
  refine ⟨?_, ?_, ?_⟩
  · intro stage hlk hed
    have hred : handleDeleteLane st laneId
        = { st with
            leads := st.leads.map (fun lead =>
              if lead.status = laneId then { lead with status := "pending" } else lead),
            funnelStages := st.funnelStages.filter (fun e => e.1 != laneId) } := by
      simp [handleDeleteLane, hlk, hed]
    rw [hred]
    refine ⟨?_, ?_, ?_, by simp, ?_, rfl⟩
    · simp only [keysOf, List.mem_map]
      rintro ⟨e, hef, hkey⟩
      rw [List.mem_filter] at hef
      exact bne_iff_ne.mp hef.2 hkey
    · intro e he hne
      rw [List.mem_filter]
      exact ⟨he, bne_iff_ne.mpr hne⟩
    · intro e he
      rw [List.mem_filter] at he
      exact ⟨he.1, bne_iff_ne.mp he.2⟩
    · intro i h h2
      constructor
      · intro hstat
        simp [List.getElem_map, hstat]
      · intro hstat
        simp [List.getElem_map, hstat]
  · intro stage hlk hed
    simp [handleDeleteLane, hlk, hed]
  · intro hlk
    simp [handleDeleteLane, hlk]

theorem deleteLane_spec_witness :
    "extra_lane" ∉ keysOf (handleDeleteLane exState "extra_lane").funnelStages ∧
    (handleDeleteLane exState "extra_lane").leads.length = exState.leads.length := by
  have h := (deleteLane_spec exState "extra_lane").1 extraLaneStage (by decide) rfl
  exact ⟨h.1, h.2.2.2.1⟩

/-- C3: creating a stage on a non-empty registry from a non-blank title gives
it order maxOrder+1, strictly greater than the order of every stage that
existed before the creation. -/
theorem createLane_order_exceeds_existing (reg : Registry) (title color : String)
    (_hne : reg ≠ []) (ht : jsTrim title ≠ []) :
    (handleCreateNewLane reg title color).lookup (slugify title)
      = some { title := title, color := color, editable := true, order := maxOrder reg + 1 } ∧
    ∀ e ∈ reg, e.2.order < maxOrder reg + 1 := by
  constructor
  · unfold handleCreateNewLane
    rw [if_neg ht]
    exact lookup_insertOrReplace reg (slugify title) _
  · intro e he
    exact Nat.lt_succ_of_le (order_le_maxOrder he)

theorem createLane_order_exceeds_existing_witness :
    (handleCreateNewLane DEFAULT_FUNNEL_STAGES "Nova Etapa" "bg-indigo-500").lookup
        (slugify "Nova Etapa")
      = some { title := "Nova Etapa", color := "bg-indigo-500", editable := true,
               order := maxOrder DEFAULT_FUNNEL_STAGES + 1 } ∧
    ∀ e ∈ DEFAULT_FUNNEL_STAGES, e.2.order < maxOrder DEFAULT_FUNNEL_STAGES + 1 :=
  createLane_order_exceeds_existing DEFAULT_FUNNEL_STAGES "Nova Etapa" "bg-indigo-500"
    (by decide) (by decide)

/-- C5: a lead drop whose destination stage and position both equal the source
is a complete no-op in both drag-handler variants: no remote call is issued
and the component state (lead cache, registry, error) is unchanged. -/
theorem dragEnd_same_stage_same_index_noop (st : CRMState) (st2 : CRMState2)
    (r : DropResult) (remoteOk : Bool) (d : DropTarget)
    (hdst : r.destination = some d) (htype : r.type ≠ "LANE")
    (hstage : d.droppableId = r.source.droppableId) (hidx : d.index = r.source.index) :
    handleDragEnd st r remoteOk = (st, []) ∧ handleDragEnd2 st2 r remoteOk = (st2, []) := by
  constructor
  · simp [handleDragEnd, hdst, htype, hstage.symm, hidx.symm]
  · simp [handleDragEnd2, hdst, hstage.symm]

theorem dragEnd_same_stage_same_index_noop_witness :
    handleDragEnd exState
        { destination := some { droppableId := "pending", index := 0 },
          source := { droppableId := "pending", index := 0 },
          draggableId := "1", type := "DEFAULT" } true = (exState, []) ∧
    handleDragEnd2 exState2
        { destination := some { droppableId := "pending", index := 0 },
          source := { droppableId := "pending", index := 0 },
          draggableId := "1", type := "DEFAULT" } true = (exState2, []) :=
  dragEnd_same_stage_same_index_noop exState exState2 _ true
    { droppableId := "pending", index := 0 } rfl (by decide) rfl rfl

/-- C6: when the remote status update fails, both the dropdown move and the
drag handler set the error banner and leave the lead cache (and the registry)
exactly as they were; the optimistic patch happens only on success. -/
theorem statusChange_failure_preserves_cache (st : CRMState) (leadId newStatus : String)
    (r : DropResult) (d : DropTarget)
    (hdst : r.destination = some d) (htype : r.type ≠ "LANE")
    (hmove : ¬(r.source.droppableId = d.droppableId ∧ r.source.index = d.index)) :
    (moveLeadToStatus st leadId newStatus false).1.leads = st.leads ∧
    (moveLeadToStatus st leadId newStatus false).1.funnelStages = st.funnelStages ∧
    (moveLeadToStatus st leadId newStatus false).1.error = "Erro ao atualizar status do lead" ∧
    (handleDragEnd st r false).1.leads = st.leads ∧
    (handleDragEnd st r false).1.funnelStages = st.funnelStages ∧
    (handleDragEnd st r false).1.error = "Erro ao atualizar status do lead" := by
  refine ⟨rfl, rfl, rfl, ?_, ?_, ?_⟩ <;>
    simp [handleDragEnd, hdst, htype, hmove]

theorem statusChange_failure_preserves_cache_witness :
    (moveLeadToStatus exState "1" "contacted" false).1.leads = exState.leads ∧
    (handleDragEnd exState exDropCross false).1.leads = exState.leads ∧
    (handleDragEnd exState exDropCross false).1.error = "Erro ao atualizar status do lead" := by
  have h := statusChange_failure_preserves_cache exState "1" "contacted" exDropCross
    { droppableId := "contacted", index := 0 } rfl (by decide) (by decide)
  exact ⟨h.1, h.2.2.2.1, h.2.2.2.2.2⟩

/-- C7: a successful status change to S for lead id L maps the cache
elementwise, changing exactly the status of the leads whose id is L (to S)
and nothing else: every other field of every lead, the cache length and
order, the registry, and the error message are unchanged. -/
theorem statusChange_success_frame (st : CRMState) (leadId newStatus : String) :
    (moveLeadToStatus st leadId newStatus true).1.leads.length = st.leads.length ∧
    (moveLeadToStatus st leadId newStatus true).1.funnelStages = st.funnelStages ∧
    (moveLeadToStatus st leadId newStatus true).1.error = st.error ∧
    ∀ i (h : i < st.leads.length)
        (h2 : i < (moveLeadToStatus st leadId newStatus true).1.leads.length),
      ((moveLeadToStatus st leadId newStatus true).1.leads[i]).id = (st.leads[i]).id ∧
      ((moveLeadToStatus st leadId newStatus true).1.leads[i]).full_name
        = (st.leads[i]).full_name ∧
      ((moveLeadToStatus st leadId newStatus true).1.leads[i]).phone = (st.leads[i]).phone ∧
      ((moveLeadToStatus st leadId newStatus true).1.leads[i]).age = (st.leads[i]).age ∧
      ((moveLeadToStatus st leadId newStatus true).1.leads[i]).class_day
        = (st.leads[i]).class_day ∧
      ((moveLeadToStatus st leadId newStatus true).1.leads[i]).class_time
        = (st.leads[i]).class_time ∧
      ((moveLeadToStatus st leadId newStatus true).1.leads[i]).class_name
        = (st.leads[i]).class_name ∧
      ((moveLeadToStatus st leadId newStatus true).1.leads[i]).specific_date
        = (st.leads[i]).specific_date ∧
      ((moveLeadToStatus st leadId newStatus true).1.leads[i]).created_at
        = (st.leads[i]).created_at ∧
      ((moveLeadToStatus st leadId newStatus true).1.leads[i]).status
        = (if (st.leads[i]).id = leadId then newStatus else (st.leads[i]).status) := by
  refine ⟨by simp [moveLeadToStatus, updateLeadStatus], rfl, rfl, ?_⟩
  intro i h h2
  simp only [moveLeadToStatus, updateLeadStatus, if_true, List.getElem_map]
  by_cases hid : (st.leads[i]).id = leadId <;> simp [hid]

theorem statusChange_success_frame_witness :
    ((moveLeadToStatus exState "1" "contacted" true).1.leads.get ⟨0, by decide⟩).status
      = "contacted" := by
  have h := (statusChange_success_frame exState "1" "contacted").2.2.2 0 (by decide) (by decide)
  have hs := h.2.2.2.2.2.2.2.2.2
  simpa using hs

/-- C8: the identifier of a created stage is derived by slugifying the title:
the title lowercased with every maximal whitespace run replaced by a single
underscore (`specSlug` spells out that reading; the code computation
`slugify` coincides with it, and the created stage sits under that key). -/
theorem createLane_id_is_slugified_title (reg : Registry) (title color : String)
    (ht : jsTrim title ≠ []) :
    slugify title = specSlug title ∧
    (handleCreateNewLane reg title color).lookup (specSlug title)
      = some { title := title, color := color, editable := true, order := maxOrder reg + 1 } := by
  refine ⟨slugify_eq_specSlug title, ?_⟩
  rw [← slugify_eq_specSlug title]
  unfold handleCreateNewLane
  rw [if_neg ht]
  exact lookup_insertOrReplace reg (slugify title) _

theorem createLane_id_is_slugified_title_witness :
    slugify "Nova  ETAPA" = specSlug "Nova  ETAPA" ∧
    (handleCreateNewLane DEFAULT_FUNNEL_STAGES "Nova  ETAPA" "bg-pink-500").lookup
        (specSlug "Nova  ETAPA")
      = some { title := "Nova  ETAPA", color := "bg-pink-500", editable := true,
               order := maxOrder DEFAULT_FUNNEL_STAGES + 1 } :=
  createLane_id_is_slugified_title DEFAULT_FUNNEL_STAGES "Nova  ETAPA" "bg-pink-500" (by decide)

/-- C9: creating a lane whose slug equals an existing stage identifier
overwrites that stage in place: the key list and the stage count are
unchanged, the colliding key now holds the new title and color with
editable = true and order maxOrder+1, and every other entry is untouched. -/
theorem createLane_overwrites_existing_id (reg : Registry) (title color : String)
    (ht : jsTrim title ≠ []) (hmem : slugify title ∈ keysOf reg) :
    keysOf (handleCreateNewLane reg title color) = keysOf reg ∧
    (handleCreateNewLane reg title color).length = reg.length ∧
    (handleCreateNewLane reg title color).lookup (slugify title)
      = some { title := title, color := color, editable := true, order := maxOrder reg + 1 } ∧
    ∀ e ∈ reg, e.1 ≠ slugify title → e ∈ handleCreateNewLane reg title color := by
  have hred : handleCreateNewLane reg title color
      = reg.map (fun e => if e.1 = slugify title
          then (slugify title,
                { title := title, color := color, editable := true,
                  order := maxOrder reg + 1 })
          else e) := by
    unfold handleCreateNewLane insertOrReplace
    rw [if_neg ht, if_pos (contains_iff_mem_keys.mpr hmem)]
  refine ⟨?_, ?_, ?_, ?_⟩
  · rw [hred]
    exact keysOf_replaceAll reg (slugify title) _
  · rw [hred]
    simp
  · unfold handleCreateNewLane
    rw [if_neg ht]
    exact lookup_insertOrReplace reg (slugify title) _
  · intro e he hne
    rw [hred]
    refine List.mem_map.mpr ⟨e, he, ?_⟩
    rw [if_neg hne]

theorem createLane_overwrites_existing_id_witness :
    keysOf (handleCreateNewLane DEFAULT_FUNNEL_STAGES "Pending" "bg-pink-500")
      = keysOf DEFAULT_FUNNEL_STAGES ∧
    (handleCreateNewLane DEFAULT_FUNNEL_STAGES "Pending" "bg-pink-500").length
      = DEFAULT_FUNNEL_STAGES.length ∧
    (handleCreateNewLane DEFAULT_FUNNEL_STAGES "Pending" "bg-pink-500").lookup
        (slugify "Pending")
      = some { title := "Pending", color := "bg-pink-500", editable := true,
               order := maxOrder DEFAULT_FUNNEL_STAGES + 1 } ∧
    ∀ e ∈ DEFAULT_FUNNEL_STAGES, e.1 ≠ slugify "Pending" →
      e ∈ handleCreateNewLane DEFAULT_FUNNEL_STAGES "Pending" "bg-pink-500" :=
  createLane_overwrites_existing_id DEFAULT_FUNNEL_STAGES "Pending" "bg-pink-500"
    (by decide) (by decide)

/-- C10: after a successful load every cached lead has a non-empty status;
a record with a missing or empty status is normalized to "pending" during the
load mapping, a present non-empty status is kept, and no other field is
changed by the normalization. -/
theorem loadLeads_status_normalization (data : List TrialRegistration) :
    (loadLeads data).length = data.length ∧
    (∀ lead ∈ loadLeads data, lead.status ≠ "") ∧
    ∀ i (h : i < data.length) (h2 : i < (loadLeads data).length),
      ((loadLeads data)[i]).id = (data[i]).id.getD "" ∧
      ((loadLeads data)[i]).full_name = (data[i]).full_name ∧
      ((loadLeads data)[i]).phone = (data[i]).phone ∧
      ((loadLeads data)[i]).age = (data[i]).age ∧
      ((loadLeads data)[i]).class_day = (data[i]).class_day ∧
      ((loadLeads data)[i]).class_time = (data[i]).class_time ∧
      ((loadLeads data)[i]).class_name = (data[i]).class_name ∧
      ((loadLeads data)[i]).specific_date = (data[i]).specific_date ∧
      ((loadLeads data)[i]).created_at = (data[i]).created_at ∧
      (((data[i]).status = none ∨ (data[i]).status = some "") →
        ((loadLeads data)[i]).status = "pending") ∧
      (∀ s, (data[i]).status = some s → s ≠ "" → ((loadLeads data)[i]).status = s) := by
  refine ⟨by simp [loadLeads], ?_, ?_⟩
  · intro lead hmem
    obtain ⟨raw, -, rfl⟩ := List.mem_map.mp hmem
    exact normalizeStatus_ne_empty raw.status
  · intro i h h2
    refine ⟨by simp [loadLeads, mapLoadedLead], by simp [loadLeads, mapLoadedLead],
      by simp [loadLeads, mapLoadedLead], by simp [loadLeads, mapLoadedLead],
      by simp [loadLeads, mapLoadedLead], by simp [loadLeads, mapLoadedLead],
      by simp [loadLeads, mapLoadedLead], by simp [loadLeads, mapLoadedLead],
      by simp [loadLeads, mapLoadedLead], ?_, ?_⟩
    · rintro (hs | hs) <;> simp [loadLeads, mapLoadedLead, normalizeStatus, hs]
    · intro s hs hne
      simp [loadLeads, mapLoadedLead, normalizeStatus, hs, hne]

theorem loadLeads_status_normalization_witness :
    ((loadLeads [exRaw]).get ⟨0, by decide⟩).status = "pending" := by
  have h := (loadLeads_status_normalization [exRaw]).2.2 0 (by decide) (by decide)
  simpa using h.2.2.2.2.2.2.2.2.2.1 (Or.inl rfl)

/-- C4 counterexample: in the `part_002` variant, a drop whose destination
stage equals the source stage but whose position differs (source index 0,
destination index 1) issues no remote update and leaves the state untouched,
contradicting the claim that every drop that is not same-stage-same-position
issues a remote status update. -/
theorem dragEnd2_same_stage_different_position_counterexample :
    exDropSameLane.destination = some { droppableId := "pending", index := 1 } ∧
    exDropSameLane.source = { droppableId := "pending", index := 0 } ∧
    handleDragEnd2 exState2 exDropSameLane true = (exState2, []) :=
  ⟨rfl, rfl, by decide⟩

/-- C4 (amended): a drop whose destination stage differs from the source stage
issues exactly one remote update `(draggableId, destination stage)` and, on
success, patches the dragged lead's cached status to the destination stage,
in both handler variants. The `part_000` handler moreover does this for every
drop that is not same-stage-same-position (so also for same-stage drops at a
different position), while the `part_002` handler no-ops on every same-stage
drop regardless of position. -/
theorem dragEnd_cross_stage_updates (st : CRMState) (st2 : CRMState2) (r : DropResult)
    (d : DropTarget) (hdst : r.destination = some d) (htype : r.type ≠ "LANE")
    (hmove : ¬(r.source.droppableId = d.droppableId ∧ r.source.index = d.index)) :
    ((handleDragEnd st r true).2 = [(r.draggableId, d.droppableId)] ∧
      (handleDragEnd st r true).1.leads = updateLeadStatus st.leads r.draggableId d.droppableId ∧
      ∀ i (h : i < st.leads.length) (h2 : i < (handleDragEnd st r true).1.leads.length),
        ((handleDragEnd st r true).1.leads[i]).status
          = (if (st.leads[i]).id = r.draggableId then d.droppableId
             else (st.leads[i]).status)) ∧
    (r.source.droppableId ≠ d.droppableId →
      (handleDragEnd2 st2 r true).2 = [(r.draggableId, d.droppableId)] ∧
      (handleDragEnd2 st2 r true).1.leads
        = updateLeadStatus st2.leads r.draggableId d.droppableId) := by
  have hred : handleDragEnd st r true
      = ({ st with leads := updateLeadStatus st.leads r.draggableId d.droppableId },
         [(r.draggableId, d.droppableId)]) := by
    simp [handleDragEnd, hdst, htype, hmove]
  constructor
  · refine ⟨by rw [hred], by rw [hred], ?_⟩
    intro i h h2
    simp only [hred, updateLeadStatus, List.getElem_map]
    by_cases hid : (st.leads[i]).id = r.draggableId <;> simp [hid]
  · intro hne
    have hred2 : handleDragEnd2 st2 r true
        = ({ st2 with leads := updateLeadStatus st2.leads r.draggableId d.droppableId },
           [(r.draggableId, d.droppableId)]) := by
      simp [handleDragEnd2, hdst, hne]
    exact ⟨by rw [hred2], by rw [hred2]⟩

theorem dragEnd_cross_stage_updates_witness :
    (handleDragEnd exState exDropCross true).2 = [("1", "contacted")] ∧
    (handleDragEnd2 exState2 exDropCross true).2 = [("1", "contacted")] := by
  have h := dragEnd_cross_stage_updates exState exState2 exDropCross
    { droppableId := "contacted", index := 0 } rfl (by decide) (by decide)
  exact ⟨h.1.1, (h.2 (by decide)).1⟩

/-- C1 counterexample: the adjacent-swap `moveLane` only exchanges existing
order values, so on a registry whose orders are {0, 2} (reachable by creating
two lanes and deleting the first) the result has orders {2, 0}, not the dense
range 0..n-1 that the claim asserts for every registry. -/
theorem moveLane_not_dense_counterexample :
    keysOf (moveLane nonDenseReg "a" LaneDir.right) = keysOf nonDenseReg ∧
    ¬ (ordersOf (moveLane nonDenseReg "a" LaneDir.right)).Perm
        (List.range (moveLane nonDenseReg "a" LaneDir.right).length) := by
  constructor
  · decide
  · decide

/-- C1 (amended): reordering preserves the stage-identifier list exactly in
both operations. The drag-splice handler renumbers every entry by its
position in the spliced sorted list, so its orders are exactly the dense
range 0..n-1 for every registry (with in-range drag indices). The
adjacent-swap `moveLane` only exchanges the two stages' existing order
values, so it preserves the multiset of orders — and therefore yields a dense
0..n-1 order whenever the registry already had one — but it does not produce
a dense range from a registry whose orders were not dense. -/
theorem reorder_stages_keys_and_orders (reg : Registry) (srcIdx dstIdx : Nat)
    (laneId : String) (dir : LaneDir)
    (hnd : (keysOf reg).Nodup) (hsrc : srcIdx < reg.length) (hdst : dstIdx < reg.length) :
    keysOf (handleDragEndLane reg srcIdx dstIdx) = keysOf reg ∧
    (ordersOf (handleDragEndLane reg srcIdx dstIdx)).Perm (List.range reg.length) ∧
    keysOf (moveLane reg laneId dir) = keysOf reg ∧
    (ordersOf (moveLane reg laneId dir)).Perm (ordersOf reg) ∧
    ((ordersOf reg).Perm (List.range reg.length) →
      (ordersOf (moveLane reg laneId dir)).Perm
        (List.range (moveLane reg laneId dir).length)) := by
  refine ⟨keysOf_handleDragEndLane reg srcIdx dstIdx,
    ordersOf_handleDragEndLane_perm reg srcIdx dstIdx hnd hsrc hdst,
    keysOf_moveLane reg laneId dir,
    ordersOf_moveLane_perm reg laneId dir hnd, ?_⟩
  intro hdense
  have hlen : (moveLane reg laneId dir).length = reg.length := by
    have hk := congrArg List.length (keysOf_moveLane reg laneId dir)
    simpa [keysOf] using hk
  rw [hlen]
  exact (ordersOf_moveLane_perm reg laneId dir hnd).trans hdense

theorem reorder_stages_keys_and_orders_witness :
    keysOf (handleDragEndLane DEFAULT_FUNNEL_STAGES 0 2) = keysOf DEFAULT_FUNNEL_STAGES ∧
    (ordersOf (handleDragEndLane DEFAULT_FUNNEL_STAGES 0 2)).Perm
      (List.range DEFAULT_FUNNEL_STAGES.length) ∧
    keysOf (moveLane DEFAULT_FUNNEL_STAGES "pending" LaneDir.right)
      = keysOf DEFAULT_FUNNEL_STAGES ∧
    (ordersOf (moveLane DEFAULT_FUNNEL_STAGES "pending" LaneDir.right)).Perm
      (ordersOf DEFAULT_FUNNEL_STAGES) ∧
    ((ordersOf DEFAULT_FUNNEL_STAGES).Perm (List.range DEFAULT_FUNNEL_STAGES.length) →
      (ordersOf (moveLane DEFAULT_FUNNEL_STAGES "pending" LaneDir.right)).Perm
        (List.range (moveLane DEFAULT_FUNNEL_STAGES "pending" LaneDir.right).length)) :=
  reorder_stages_keys_and_orders DEFAULT_FUNNEL_STAGES 0 2 "pending" LaneDir.right
    (by decide) (by decide) (by decide)
